import Mathlib

/-!
Shallow embedding of the netchat server core (`src/server/mod.rs`): the vector
clock, the dedup set, and one iteration of the `run` event loop, together with
proofs of the spec's claims about them.
-/

namespace Netchat

/-- Modelled from the spec: `PeerId` (the source's `crate::app::AppId`, which is
outside `src/`) is an opaque, equality-comparable, hashable peer identifier. -/
abbrev AppId := String

/-- Modelled from the spec: `LogicalTime` (the source's `messages::Date`, which is
outside `src/`) is an unsigned monotonically increasing counter. -/
abbrev Date := Nat

/-- Modelled from the spec: `MessageId` (the source's `messages::MsgId`, which is
outside `src/`) is an opaque randomly generated token used only for dedup. -/
abbrev MsgId := Nat

/-- Association-list lookup: the map view of `HashMap::get`. -/
def lookupEntry : List (AppId × Date) → AppId → Option Date
  | [], _ => none
  | (k, v) :: rest, id => if k = id then some v else lookupEntry rest id

/-- Association-list insert-or-replace: the map view of `HashMap::insert`. -/
def insertEntry : List (AppId × Date) → AppId → Date → List (AppId × Date)
  | [], id, d => [(id, d)]
  | (k, v) :: rest, id, d =>
      if k = id then (id, d) :: rest else (k, v) :: insertEntry rest id d

/-- `struct Clock(pub HashMap<AppId, Date>)`, the map embedded as an
association list. -/
structure Clock where
  entries : List (AppId × Date)
deriving DecidableEq

/-- `HashMap::get` on a clock (the `Shrinkwrap` deref in `Clock::merge`). -/
def Clock.get (c : Clock) (id : AppId) : Option Date :=
  lookupEntry c.entries id

/-- `Clock::new`: a single entry `app_id -> 0`. -/
def Clock.new (app_id : AppId) : Clock :=
  ⟨[(app_id, 0)]⟩

/-- One iteration of the `for` loop in `Clock::merge`: keep the local date if it
is at least the incoming one, otherwise insert the incoming date. -/
def mergeStep (self : Clock) (id : AppId) (date : Date) : Clock :=
  match self.get id with
  | some local_date => if local_date ≥ date then self else ⟨insertEntry self.entries id date⟩
  | none => ⟨insertEntry self.entries id date⟩

/-- The `for (id, date) in &clock.0` loop of `Clock::merge`. -/
def mergeList : Clock → List (AppId × Date) → Clock
  | self, [] => self
  | self, (id, date) :: rest => mergeList (mergeStep self id date) rest

/-- `Clock::merge`. -/
def Clock.merge (self other : Clock) : Clock :=
  mergeList self other.entries

/-- Modelled from the spec: `PayloadKind` (the source's `messages::Header`, which
is outside `src/`), with the constructors `server/mod.rs` matches on. -/
inductive Header where
  | Public : String → Header
  | Private : AppId → String → Header
deriving DecidableEq

/-- Modelled from the spec: `MessageEnvelope` {id, sender, payload, clock} (the
source's `messages::Msg`, which is outside `src/`, with the fields
`server/mod.rs` uses). -/
structure Msg where
  id : MsgId
  sender : AppId
  header : Header
  clock : Clock
deriving DecidableEq

/-- `Msg::new(msg_id, app_id, header, clock)`. -/
def Msg.new (id : MsgId) (sender : AppId) (header : Header) (clock : Clock) : Msg :=
  ⟨id, sender, header, clock⟩

/-- Modelled from the spec: application-facing events (the source's
`app::events::Event`, which is outside `src/`): `ServerMessage` is the `Notice`,
`DistantMessage` the `Delivered` event, `Clock` the clock snapshot. -/
inductive AppEvent where
  | ServerMessage : String → AppEvent
  | DistantMessage : Msg → AppEvent
  | Clock : Clock → AppEvent
deriving DecidableEq

/-- Modelled from the spec: dispatcher input events (the source's
`server::events::Event`, which is outside `src/`). `DistantInput` carries the
outcome of `Msg::from_str` on the raw line; `none` is a decode failure. -/
inductive Event where
  | DistantInput : Option Msg → Event
  | UserPublicMessage : String → Event
  | UserPrivateMessage : AppId → String → Event
  | GetClock : Event
  | Shutdown : Event
deriving DecidableEq

/-- `struct Server`, the dedup `HashSet<MsgId>` embedded as a list. -/
structure Server where
  app_id : AppId
  clock : Clock
  sent_messages_ids : List MsgId
deriving DecidableEq

/-- `Server::new`. -/
def Server.new (app_id : AppId) : Server :=
  ⟨app_id, Clock.new app_id, []⟩

/-- `HashSet::insert` on the dedup set (set semantics; the returned flag is the
`contains` check done by the caller). -/
def insertSet (l : List MsgId) (id : MsgId) : List MsgId :=
  if l.contains id then l else id :: l

/-- `Server::increment_clock`: `entry(app_id).or_insert(0)` then `+= 1`. -/
def increment_clock (s : Server) : Server :=
  { s with clock := ⟨insertEntry s.clock.entries s.app_id ((s.clock.get s.app_id).getD 0 + 1)⟩ }

/-- Outcome of the fallible serialize and transport-write steps inside
`Server::send_message`: whether `msg.serialize()` succeeds and whether
`output_file.write_all` succeeds. -/
structure SendOutcome where
  serializeOk : Bool
  writeOk : Bool
deriving DecidableEq

/-- `Server::send_message`: on success the envelope is written once to the
transport; on write failure a "No one can hear you" notice goes to the app; on
serialize failure the send is silently dropped. `self` is not mutated. Returns
(envelopes written, app events emitted). -/
def send_message (msg : Msg) (oc : SendOutcome) : List Msg × List AppEvent :=
  if oc.serializeOk then
    if oc.writeOk then ([msg], [])
    else ([], [AppEvent.ServerMessage "No one can hear you"])
  else ([], [])

/-- Result of `Server::receive_message`: updated server, the envelope with its
clock overwritten, and the transport/app output of the relay. -/
structure ReceiveResult where
  server : Server
  msg : Msg
  relayed : List Msg
  appEvents : List AppEvent
deriving DecidableEq

/-- `Server::receive_message`: merge the sender's clock into the local clock,
overwrite the envelope's clock with the merged clock, then relay it via
`send_message`. -/
def receive_message (s : Server) (msg : Msg) (oc : SendOutcome) : ReceiveResult :=
  let clock := s.clock.merge msg.clock
  let s2 := { s with clock := clock }
  let msg2 := { msg with clock := clock }
  let se := send_message msg2 oc
  ⟨s2, msg2, se.1, se.2⟩

/-- The observable outcome of one iteration of the `run` event loop: updated
server state, envelopes written to the transport, events sent to the app, and
whether the loop keeps running (`false` only after `break`). -/
structure StepResult where
  server : Server
  relayed : List Msg
  appEvents : List AppEvent
  running : Bool
deriving DecidableEq

/-- One iteration of the `loop` in `run`, handling one event. `freshId` stands
for the `rng.gen()` result used by the user-send and shutdown arms, `oc` for the
serialize/write outcomes of the transport relay. -/
def step (server : Server) (ev : Event) (freshId : MsgId) (oc : SendOutcome) : StepResult :=
  match ev with
  | Event.DistantInput none => ⟨server, [], [], true⟩
  | Event.DistantInput (some msg) =>
      if server.sent_messages_ids.contains msg.id then
        ⟨server, [], [], true⟩
      else
        let s1 := { server with sent_messages_ids := insertSet server.sent_messages_ids msg.id }
        let s2 := increment_clock s1
        let r := receive_message s2 msg oc
        let delivered :=
          match r.msg.header with
          | Header.Public _ => [AppEvent.DistantMessage r.msg]
          | Header.Private app_id _ =>
              if app_id = server.app_id then [AppEvent.DistantMessage r.msg] else []
        ⟨r.server, r.relayed, r.appEvents ++ delivered, true⟩
  | Event.UserPublicMessage message =>
      let s1 := { server with sent_messages_ids := insertSet server.sent_messages_ids freshId }
      let s2 := increment_clock s1
      let msg := Msg.new freshId server.app_id (Header.Public message) s2.clock
      let se := send_message msg oc
      ⟨s2, se.1, se.2, true⟩
  | Event.UserPrivateMessage app_id message =>
      let s1 := { server with sent_messages_ids := insertSet server.sent_messages_ids freshId }
      let s2 := increment_clock s1
      let msg := Msg.new freshId server.app_id (Header.Private app_id message) s2.clock
      let se := send_message msg oc
      ⟨s2, se.1, se.2, true⟩
  | Event.GetClock => ⟨server, [], [AppEvent.Clock server.clock], true⟩
  | Event.Shutdown =>
      let s1 := { server with sent_messages_ids := insertSet server.sent_messages_ids freshId }
      let s2 := increment_clock s1
      let msg := Msg.new freshId server.app_id (Header.Public "left the chat") s2.clock
      let se := send_message msg oc
      ⟨s2, se.1, se.2, false⟩

/-- Is this app event a `Delivered` (`DistantMessage`) event? -/
def isDelivered : AppEvent → Bool
  | AppEvent.DistantMessage _ => true
  | _ => false

/-- Number of `Delivered` events in a list of app events. -/
def countDelivered (evts : List AppEvent) : Nat :=
  (evts.filter isDelivered).length

/-- Both fallible steps of the relay succeed. -/
def ocOk : SendOutcome := ⟨true, true⟩

/-- Serialization succeeds but the transport write fails. -/
def ocWriteFail : SendOutcome := ⟨true, false⟩

/-- The local peer "A" of the spec's scenarios, freshly initialized. -/
def serverA : Server := Server.new "A"

/-- The scenario envelope from peer "B": clock {B:5}, payload Public "hi". -/
def msgB : Msg := ⟨42, "B", Header.Public "hi", ⟨[("B", 5)]⟩⟩

/-- The post-merge clock on the fresh remote-envelope path: advance the local
entry, then merge in the envelope's clock. -/
def distantClock (s : Server) (msg : Msg) : Clock :=
  (increment_clock s).clock.merge msg.clock

/-- The envelope as relayed on the fresh remote-envelope path: its clock is
overwritten with the post-merge clock. -/
def distantMsg (s : Server) (msg : Msg) : Msg :=
  { msg with clock := distantClock s msg }

/-- A concrete clock {A:1, C:7} used to witness the merge claim. -/
def clockA1 : Clock := ⟨[("A", 1), ("C", 7)]⟩

/-- A concrete clock {B:5, C:3} used to witness the merge claim. -/
def clockB1 : Clock := ⟨[("B", 5), ("C", 3)]⟩

/-- A fresh private envelope from "B" addressed to "C". -/
def msgC : Msg := ⟨43, "B", Header.Private "C" "secret", ⟨[("B", 1)]⟩⟩

/-- A fresh private envelope from "B" addressed to "A". -/
def msgA : Msg := ⟨44, "B", Header.Private "A" "secret", ⟨[("B", 1)]⟩⟩

theorem lookupEntry_insertEntry (l : List (AppId × Date)) (id p : AppId) (d : Date) :
    lookupEntry (insertEntry l id d) p = if id = p then some d else lookupEntry l p := by
  induction l with
  | nil => simp [insertEntry, lookupEntry]
  | cons hd tl ih =>
      obtain ⟨k, v⟩ := hd
      by_cases hk : k = id
      · subst hk
        by_cases hp : k = p <;> simp [insertEntry, lookupEntry, hp]
      · by_cases hp : k = p
        · subst hp
          have hne : ¬ id = k := fun h => hk h.symm
          simp [insertEntry, lookupEntry, hk, hne]
        · simp [insertEntry, lookupEntry, hk, hp, ih]

theorem lookupEntry_eq_none (l : List (AppId × Date)) (p : AppId)
    (h : p ∉ l.map Prod.fst) : lookupEntry l p = none := by
  induction l with
  | nil => rfl
  | cons hd tl ih =>
      obtain ⟨k, v⟩ := hd
      simp only [List.map_cons, List.mem_cons] at h
      push_neg at h
      have hne : ¬ k = p := fun hh => h.1 hh.symm
      simp [lookupEntry, hne, ih h.2]

theorem mergeStep_get (self : Clock) (id p : AppId) (d : Date) :
    (mergeStep self id d).get p =
      if id = p then
        (match self.get id with
         | some ld => if d ≤ ld then some ld else some d
         | none => some d)
      else self.get p := by
  unfold mergeStep
  cases h : self.get id with
  | none =>
      simp only [h]
      show lookupEntry (insertEntry self.entries id d) p = _
      rw [lookupEntry_insertEntry]
      by_cases hp : id = p
      · simp [hp]
      · simp [hp, Clock.get]
  | some ld =>
      simp only [h, ge_iff_le]
      by_cases hle : d ≤ ld
      · simp only [if_pos hle]
        by_cases hp : id = p
        · subst hp
          simp [h]
        · simp [hp]
      · simp only [if_neg hle]
        show lookupEntry (insertEntry self.entries id d) p = _
        rw [lookupEntry_insertEntry]
        by_cases hp : id = p
        · simp [hp, hle]
        · simp [hp, Clock.get]

theorem mergeList_get_of_nodup (l : List (AppId × Date)) (self : Clock) (p : AppId)
    (hl : (l.map Prod.fst).Nodup) :
    (mergeList self l).get p =
      match lookupEntry l p, self.get p with
      | some t, some la => if la < t then some t else some la
      | some t, none => some t
      | none, x => x := by
  induction l generalizing self with
  | nil => cases h : self.get p <;> simp [mergeList, lookupEntry, h]
  | cons hd tl ih =>
      obtain ⟨k, d0⟩ := hd
      simp only [List.map_cons, List.nodup_cons] at hl
      obtain ⟨hk, htl⟩ := hl
      simp only [mergeList]
      rw [ih _ htl]
      by_cases hp : k = p
      · subst hp
        rw [lookupEntry_eq_none tl k hk]
        rw [mergeStep_get]
        simp only [if_pos rfl]
        have hlk : lookupEntry ((k, d0) :: tl) k = some d0 := by simp [lookupEntry]
        rw [hlk]
        cases h : self.get k with
        | none => simp
        | some la =>
            by_cases hlt : la < d0
            · simp [Nat.not_le.mpr hlt, hlt]
            · simp [Nat.not_lt.mp hlt, hlt]
      · rw [mergeStep_get, if_neg hp]
        have hlk : lookupEntry ((k, d0) :: tl) p = lookupEntry tl p := by
          simp [lookupEntry, hp]
        rw [hlk]

theorem mergeList_mono (l : List (AppId × Date)) (self : Clock) (p : AppId) (d : Date)
    (h : self.get p = some d) :
    ∃ e, (mergeList self l).get p = some e ∧ d ≤ e := by
  induction l generalizing self d with
  | nil => exact ⟨d, h, le_refl d⟩
  | cons hd tl ih =>
      obtain ⟨k, d0⟩ := hd
      simp only [mergeList]
      have hstep : ∃ e0, (mergeStep self k d0).get p = some e0 ∧ d ≤ e0 := by
        rw [mergeStep_get]
        by_cases hp : k = p
        · subst hp
          rw [if_pos rfl, h]
          by_cases hle : d0 ≤ d
          · exact ⟨d, by simp [hle], le_refl d⟩
          · exact ⟨d0, by simp [hle], le_of_not_le hle⟩
        · exact ⟨d, by simp [hp, h], le_refl d⟩
      obtain ⟨e0, he0, hde0⟩ := hstep
      obtain ⟨e, he, h0e⟩ := ih _ _ he0
      exact ⟨e, he, le_trans hde0 h0e⟩

theorem increment_clock_get (s : Server) (p : AppId) :
    (increment_clock s).clock.get p =
      if s.app_id = p then some ((s.clock.get s.app_id).getD 0 + 1) else s.clock.get p := by
  show lookupEntry (insertEntry s.clock.entries s.app_id _) p = _
  rw [lookupEntry_insertEntry]
  rfl

theorem increment_clock_local (s : Server) :
    (increment_clock s).clock.get s.app_id = some ((s.clock.get s.app_id).getD 0 + 1) := by
  rw [increment_clock_get, if_pos rfl]

theorem step_distant_seen (s : Server) (msg : Msg) (fid : MsgId) (oc : SendOutcome)
    (h : s.sent_messages_ids.contains msg.id = true) :
    step s (Event.DistantInput (some msg)) fid oc = ⟨s, [], [], true⟩ := by
  simp only [step]
  rw [if_pos h]

theorem step_distant_fresh (s : Server) (msg : Msg) (fid : MsgId) (oc : SendOutcome)
    (h : s.sent_messages_ids.contains msg.id = false) :
    step s (Event.DistantInput (some msg)) fid oc =
      ⟨⟨s.app_id, distantClock s msg, msg.id :: s.sent_messages_ids⟩,
       (send_message (distantMsg s msg) oc).1,
       (send_message (distantMsg s msg) oc).2 ++
         (match msg.header with
          | Header.Public _ => [AppEvent.DistantMessage (distantMsg s msg)]
          | Header.Private a _ =>
              if a = s.app_id then [AppEvent.DistantMessage (distantMsg s msg)] else []),
       true⟩ := by
  simp only [step, h, Bool.false_eq_true, if_false, insertSet, receive_message,
    distantClock, distantMsg]
  rfl

theorem step_user_public (s : Server) (text : String) (fid : MsgId) (oc : SendOutcome) :
    step s (Event.UserPublicMessage text) fid oc =
      ⟨⟨s.app_id, (increment_clock s).clock, insertSet s.sent_messages_ids fid⟩,
       (send_message (Msg.new fid s.app_id (Header.Public text) (increment_clock s).clock) oc).1,
       (send_message (Msg.new fid s.app_id (Header.Public text) (increment_clock s).clock) oc).2,
       true⟩ := rfl

theorem step_user_private (s : Server) (tgt : AppId) (text : String) (fid : MsgId)
    (oc : SendOutcome) :
    step s (Event.UserPrivateMessage tgt text) fid oc =
      ⟨⟨s.app_id, (increment_clock s).clock, insertSet s.sent_messages_ids fid⟩,
       (send_message (Msg.new fid s.app_id (Header.Private tgt text) (increment_clock s).clock) oc).1,
       (send_message (Msg.new fid s.app_id (Header.Private tgt text) (increment_clock s).clock) oc).2,
       true⟩ := rfl

theorem step_shutdown (s : Server) (fid : MsgId) (oc : SendOutcome) :
    step s Event.Shutdown fid oc =
      ⟨⟨s.app_id, (increment_clock s).clock, insertSet s.sent_messages_ids fid⟩,
       (send_message (Msg.new fid s.app_id (Header.Public "left the chat") (increment_clock s).clock) oc).1,
       (send_message (Msg.new fid s.app_id (Header.Public "left the chat") (increment_clock s).clock) oc).2,
       false⟩ := rfl

theorem send_message_ok (msg : Msg) : send_message msg ocOk = ([msg], []) := rfl

theorem send_message_writeFail (msg : Msg) :
    send_message msg ocWriteFail = ([], [AppEvent.ServerMessage "No one can hear you"]) := rfl

theorem send_message_fail_relayed (msg : Msg) (oc : SendOutcome)
    (h : oc.serializeOk = false ∨ oc.writeOk = false) : (send_message msg oc).1 = [] := by
  obtain ⟨a, b⟩ := oc
  cases a <;> cases b <;> simp_all [send_message]

theorem countDelivered_send (msg : Msg) (oc : SendOutcome) :
    countDelivered (send_message msg oc).2 = 0 := by
  obtain ⟨a, b⟩ := oc
  cases a <;> cases b <;> rfl

theorem countDelivered_append (l1 l2 : List AppEvent) :
    countDelivered (l1 ++ l2) = countDelivered l1 + countDelivered l2 := by
  simp [countDelivered, List.filter_append]

theorem contains_insertSet_self (l : List MsgId) (id : MsgId) :
    (insertSet l id).contains id = true := by
  unfold insertSet
  by_cases h : l.contains id = true
  · rw [if_pos h]
    exact h
  · rw [if_neg h]
    simp

theorem increment_clock_mono (s : Server) (p : AppId) (d : Date)
    (h : s.clock.get p = some d) :
    ∃ e, (increment_clock s).clock.get p = some e ∧ d ≤ e := by
  rw [increment_clock_get]
  by_cases hp : s.app_id = p
  · rw [if_pos hp, hp, h]
    exact ⟨d + 1, rfl, Nat.le_succ d⟩
  · rw [if_neg hp]
    exact ⟨d, h, le_refl d⟩

theorem countDelivered_single (msg : Msg) :
    countDelivered [AppEvent.DistantMessage msg] = 1 := rfl

/-- C1: `Clock::merge` computes the pointwise maximum over the union of keys:
for every peer `p`, if the other clock has an entry `t` for `p` and the
receiver's entry is absent or strictly smaller, the merged entry is `t`;
otherwise the receiver's entry is unchanged. The other clock embeds a
`HashMap`, so its entry list carries no duplicate keys. -/
theorem C1_merge_pointwise_max (A B : Clock) (p : AppId)
    (hB : (B.entries.map Prod.fst).Nodup) :
    (A.merge B).get p =
      match B.get p, A.get p with
      | some t, some la => if la < t then some t else some la
      | some t, none => some t
      | none, x => x :=
  mergeList_get_of_nodup B.entries A p hB

/-- Witness for C1 at the concrete clocks {A:1, C:7} and {B:5, C:3}. -/
theorem C1_merge_pointwise_max_witness :
    ((clockB1.entries.map Prod.fst).Nodup) ∧
      (clockA1.merge clockB1).get "C" =
        match clockB1.get "C", clockA1.get "C" with
        | some t, some la => if la < t then some t else some la
        | some t, none => some t
        | none, x => x :=
  ⟨by decide, C1_merge_pointwise_max clockA1 clockB1 "C" (by decide)⟩

/-- C2: processing a fresh remote envelope strictly advances the local clock
entry and relays the envelope with its clock overwritten; processing the same
envelope a second time is a no-op: the server state is unchanged, nothing is
written to the transport, and no app event (so no Delivered event) is emitted. -/
theorem C2_duplicate_remote_noop (s : Server) (msg : Msg) (fid fid2 : MsgId) (d0 : Date)
    (hfresh : s.sent_messages_ids.contains msg.id = false)
    (hlocal : s.clock.get s.app_id = some d0) :
    (∃ d1, (step s (Event.DistantInput (some msg)) fid ocOk).server.clock.get s.app_id = some d1 ∧
       d0 < d1) ∧
    (step s (Event.DistantInput (some msg)) fid ocOk).relayed = [distantMsg s msg] ∧
    step (step s (Event.DistantInput (some msg)) fid ocOk).server
        (Event.DistantInput (some msg)) fid2 ocOk =
      ⟨(step s (Event.DistantInput (some msg)) fid ocOk).server, [], [], true⟩ := by
  rw [step_distant_fresh s msg fid ocOk hfresh]
  refine ⟨?_, ?_, ?_⟩
  · show ∃ d1, (distantClock s msg).get s.app_id = some d1 ∧ d0 < d1
    have hinc : (increment_clock s).clock.get s.app_id = some (d0 + 1) := by
      rw [increment_clock_local, hlocal]
      rfl
    obtain ⟨e, he, hde⟩ :=
      mergeList_mono msg.clock.entries (increment_clock s).clock s.app_id (d0 + 1) hinc
    exact ⟨e, he, Nat.lt_of_lt_of_le (Nat.lt_succ_self d0) hde⟩
  · show (send_message (distantMsg s msg) ocOk).1 = [distantMsg s msg]
    rw [send_message_ok]
  · apply step_distant_seen
    show (msg.id :: s.sent_messages_ids).contains msg.id = true
    simp

/-- Witness for C2: peer "A" processes the fresh envelope from "B" twice. -/
theorem C2_duplicate_remote_noop_witness :
    (serverA.sent_messages_ids.contains msgB.id = false) ∧
    (serverA.clock.get serverA.app_id = some 0) ∧
    ((∃ d1, (step serverA (Event.DistantInput (some msgB)) 1 ocOk).server.clock.get
          serverA.app_id = some d1 ∧ 0 < d1) ∧
     (step serverA (Event.DistantInput (some msgB)) 1 ocOk).relayed = [distantMsg serverA msgB] ∧
     step (step serverA (Event.DistantInput (some msgB)) 1 ocOk).server
         (Event.DistantInput (some msgB)) 2 ocOk =
       ⟨(step serverA (Event.DistantInput (some msgB)) 1 ocOk).server, [], [], true⟩) :=
  ⟨by decide, by decide,
   C2_duplicate_remote_noop serverA msgB 1 2 0 (by decide) (by decide)⟩

/-- C3 (counterexample): a Public envelope originating from a local user send
produces no Delivered event, not exactly one: peer "A" sending Public "hi"
emits zero Delivered events at send time, and the flood echo of that envelope
is discarded by the dedup set before the delivery decision. -/
theorem C3_counterexample_local_send :
    countDelivered (step serverA (Event.UserPublicMessage "hi") 7 ocOk).appEvents = 0 ∧
    countDelivered (step serverA (Event.UserPublicMessage "hi") 7 ocOk).appEvents ≠ 1 ∧
    countDelivered
        (step (step serverA (Event.UserPublicMessage "hi") 7 ocOk).server
          (Event.DistantInput
            (some (Msg.new 7 "A" (Header.Public "hi")
              (step serverA (Event.UserPublicMessage "hi") 7 ocOk).server.clock))) 8
          ocOk).appEvents = 0 := by
  refine ⟨by decide, by decide, by decide⟩

/-- C3 (amended): every newly seen remote Public envelope produces exactly one
Delivered event; a Public envelope originating from a local user send produces
none: no Delivered event is emitted at send time, and any echoed envelope with
the same id is discarded by the dedup set with no state change and no output. -/
theorem C3_public_delivery (s : Server) (msg : Msg) (txt text2 : String)
    (fid fid2 fid3 : MsgId) (oc oc2 oc3 : SendOutcome)
    (hfresh : s.sent_messages_ids.contains msg.id = false)
    (hpub : msg.header = Header.Public txt) :
    countDelivered (step s (Event.DistantInput (some msg)) fid oc).appEvents = 1 ∧
    countDelivered (step s (Event.UserPublicMessage text2) fid2 oc2).appEvents = 0 ∧
    (∀ msg2 : Msg, msg2.id = fid2 →
       step (step s (Event.UserPublicMessage text2) fid2 oc2).server
           (Event.DistantInput (some msg2)) fid3 oc3 =
         ⟨(step s (Event.UserPublicMessage text2) fid2 oc2).server, [], [], true⟩) := by
  refine ⟨?_, ?_, ?_⟩
  · rw [step_distant_fresh s msg fid oc hfresh]
    show countDelivered ((send_message (distantMsg s msg) oc).2 ++ _) = 1
    rw [countDelivered_append, countDelivered_send, hpub]
    rfl
  · rw [step_user_public]
    exact countDelivered_send _ _
  · intro msg2 h2
    rw [step_user_public]
    apply step_distant_seen
    show (insertSet s.sent_messages_ids fid2).contains msg2.id = true
    rw [h2]
    exact contains_insertSet_self _ _

/-- Witness for the amended C3: remote Public "hi" from "B" delivered once to
"A"; local Public "yo" delivered zero times, its echo discarded. -/
theorem C3_public_delivery_witness :
    (serverA.sent_messages_ids.contains msgB.id = false) ∧
    (msgB.header = Header.Public "hi") ∧
    countDelivered (step serverA (Event.DistantInput (some msgB)) 1 ocOk).appEvents = 1 ∧
    countDelivered (step serverA (Event.UserPublicMessage "yo") 7 ocOk).appEvents = 0 ∧
    step (step serverA (Event.UserPublicMessage "yo") 7 ocOk).server
        (Event.DistantInput (some (Msg.new 7 "A" (Header.Public "yo") (Clock.new "A")))) 8 ocOk =
      ⟨(step serverA (Event.UserPublicMessage "yo") 7 ocOk).server, [], [], true⟩ :=
  ⟨by decide, by decide,
   (C3_public_delivery serverA msgB "hi" "yo" 1 7 8 ocOk ocOk ocOk (by decide) (by decide)).1,
   (C3_public_delivery serverA msgB "hi" "yo" 1 7 8 ocOk ocOk ocOk (by decide) (by decide)).2.1,
   (C3_public_delivery serverA msgB "hi" "yo" 1 7 8 ocOk ocOk ocOk (by decide) (by decide)).2.2
     (Msg.new 7 "A" (Header.Public "yo") (Clock.new "A")) rfl⟩

/-- C4: a fresh remote Private envelope addressed to another peer is relayed
but never delivered: no Delivered event at processing time, and none at any
later reprocessing, which the dedup set turns into a no-op; a fresh remote
Private envelope addressed to the local peer is delivered exactly once. -/
theorem C4_private_delivery (s : Server) (msg : Msg) (fid : MsgId) (tgt : AppId) (txt : String)
    (hfresh : s.sent_messages_ids.contains msg.id = false)
    (hpriv : msg.header = Header.Private tgt txt) :
    (tgt ≠ s.app_id →
       countDelivered (step s (Event.DistantInput (some msg)) fid ocOk).appEvents = 0 ∧
       (step s (Event.DistantInput (some msg)) fid ocOk).relayed = [distantMsg s msg] ∧
       (∀ s2 : Server, ∀ fid2 : MsgId, ∀ oc2 : SendOutcome,
          s2.sent_messages_ids.contains msg.id = true →
          countDelivered (step s2 (Event.DistantInput (some msg)) fid2 oc2).appEvents = 0)) ∧
    (tgt = s.app_id →
       countDelivered (step s (Event.DistantInput (some msg)) fid ocOk).appEvents = 1) := by
  constructor
  · intro hne
    refine ⟨?_, ?_, ?_⟩
    · rw [step_distant_fresh s msg fid ocOk hfresh]
      show countDelivered ((send_message (distantMsg s msg) ocOk).2 ++ _) = 0
      rw [countDelivered_append, countDelivered_send, hpriv]
      simp [hne, countDelivered]
    · rw [step_distant_fresh s msg fid ocOk hfresh]
      show (send_message (distantMsg s msg) ocOk).1 = [distantMsg s msg]
      rw [send_message_ok]
    · intro s2 fid2 oc2 hseen
      rw [step_distant_seen s2 msg fid2 oc2 hseen]
      rfl
  · intro heq
    rw [step_distant_fresh s msg fid ocOk hfresh]
    show countDelivered ((send_message (distantMsg s msg) ocOk).2 ++ _) = 1
    rw [countDelivered_append, countDelivered_send, hpriv]
    simp [heq, countDelivered, isDelivered]

/-- Witness for C4: "A" processes a private envelope for "C" (relayed, not
delivered) and one addressed to "A" (delivered exactly once). -/
theorem C4_private_delivery_witness :
    (serverA.sent_messages_ids.contains msgC.id = false) ∧
    (msgC.header = Header.Private "C" "secret") ∧
    countDelivered (step serverA (Event.DistantInput (some msgC)) 1 ocOk).appEvents = 0 ∧
    (step serverA (Event.DistantInput (some msgC)) 1 ocOk).relayed = [distantMsg serverA msgC] ∧
    (serverA.sent_messages_ids.contains msgA.id = false) ∧
    (msgA.header = Header.Private "A" "secret") ∧
    countDelivered (step serverA (Event.DistantInput (some msgA)) 1 ocOk).appEvents = 1 :=
  ⟨by decide, by decide,
   ((C4_private_delivery serverA msgC 1 "C" "secret" (by decide) (by decide)).1 (by decide)).1,
   ((C4_private_delivery serverA msgC 1 "C" "secret" (by decide) (by decide)).1 (by decide)).2.1,
   by decide, by decide,
   (C4_private_delivery serverA msgA 1 "A" "secret" (by decide) (by decide)).2 (by decide)⟩

/-- C5: the spec scenario: peer "A" with clock {A:0} processes a fresh remote
envelope from "B" carrying clock {B:5} and payload Public "hi"; afterwards the
local clock is {A:1, B:5}, the relayed envelope carries clock {A:1, B:5}, and a
Delivered event for "hi" is emitted. -/
theorem C5_scenario :
    (step serverA (Event.DistantInput (some msgB)) 0 ocOk).server.clock =
      ⟨[("A", 1), ("B", 5)]⟩ ∧
    (step serverA (Event.DistantInput (some msgB)) 0 ocOk).relayed =
      [⟨42, "B", Header.Public "hi", ⟨[("A", 1), ("B", 5)]⟩⟩] ∧
    (step serverA (Event.DistantInput (some msgB)) 0 ocOk).appEvents =
      [AppEvent.DistantMessage ⟨42, "B", Header.Public "hi", ⟨[("A", 1), ("B", 5)]⟩⟩] := by
  refine ⟨by decide, by decide, by decide⟩

/-- C6: every dispatcher step preserves the local peer identity and the
presence of the local peer's clock entry, and never decreases any existing
clock entry: `increment_clock` only raises the local entry, and `Clock::merge`
only raises or adds entries. -/
theorem C6_clock_invariants (s : Server) (ev : Event) (fid : MsgId) (oc : SendOutcome)
    (p : AppId) (d : Date) :
    ((step s ev fid oc).server.app_id = s.app_id) ∧
    ((s.clock.get s.app_id).isSome = true →
       ((step s ev fid oc).server.clock.get s.app_id).isSome = true) ∧
    (s.clock.get p = some d →
       ∃ e, (step s ev fid oc).server.clock.get p = some e ∧ d ≤ e) := by
  cases ev with
  | DistantInput om =>
      cases om with
      | none => exact ⟨rfl, fun h => h, fun h => ⟨d, h, le_refl d⟩⟩
      | some m =>
          by_cases hc : s.sent_messages_ids.contains m.id = true
          · rw [step_distant_seen s m fid oc hc]
            exact ⟨rfl, fun h => h, fun h => ⟨d, h, le_refl d⟩⟩
          · have hc2 : s.sent_messages_ids.contains m.id = false := by
              cases hcc : s.sent_messages_ids.contains m.id
              · rfl
              · exact absurd hcc hc
            rw [step_distant_fresh s m fid oc hc2]
            refine ⟨rfl, ?_, ?_⟩
            · intro h
              obtain ⟨e, he, hde⟩ :=
                mergeList_mono m.clock.entries (increment_clock s).clock s.app_id _
                  (increment_clock_local s)
              have he2 : (distantClock s m).get s.app_id = some e := he
              show ((distantClock s m).get s.app_id).isSome = true
              rw [he2]
              rfl
            · intro h
              obtain ⟨e1, he1, hde1⟩ := increment_clock_mono s p d h
              obtain ⟨e2, he2, he12⟩ :=
                mergeList_mono m.clock.entries (increment_clock s).clock p e1 he1
              exact ⟨e2, he2, le_trans hde1 he12⟩
  | UserPublicMessage t =>
      refine ⟨rfl, ?_, ?_⟩
      · intro h
        show ((increment_clock s).clock.get s.app_id).isSome = true
        rw [increment_clock_local]
        rfl
      · intro h
        show ∃ e, (increment_clock s).clock.get p = some e ∧ d ≤ e
        exact increment_clock_mono s p d h
  | UserPrivateMessage a t =>
      refine ⟨rfl, ?_, ?_⟩
      · intro h
        show ((increment_clock s).clock.get s.app_id).isSome = true
        rw [increment_clock_local]
        rfl
      · intro h
        show ∃ e, (increment_clock s).clock.get p = some e ∧ d ≤ e
        exact increment_clock_mono s p d h
  | GetClock => exact ⟨rfl, fun h => h, fun h => ⟨d, h, le_refl d⟩⟩
  | Shutdown =>
      refine ⟨rfl, ?_, ?_⟩
      · intro h
        show ((increment_clock s).clock.get s.app_id).isSome = true
        rw [increment_clock_local]
        rfl
      · intro h
        show ∃ e, (increment_clock s).clock.get p = some e ∧ d ≤ e
        exact increment_clock_mono s p d h

/-- Witness for C6: one concrete remote-envelope step from the initial "A"
state. -/
theorem C6_clock_invariants_witness :
    ((step serverA (Event.DistantInput (some msgB)) 1 ocOk).server.app_id = serverA.app_id) ∧
    ((step serverA (Event.DistantInput (some msgB)) 1 ocOk).server.clock.get
        serverA.app_id).isSome = true ∧
    (∃ e, (step serverA (Event.DistantInput (some msgB)) 1 ocOk).server.clock.get "A" =
        some e ∧ 0 ≤ e) :=
  ⟨(C6_clock_invariants serverA (Event.DistantInput (some msgB)) 1 ocOk "A" 0).1,
   (C6_clock_invariants serverA (Event.DistantInput (some msgB)) 1 ocOk "A" 0).2.1 (by decide),
   (C6_clock_invariants serverA (Event.DistantInput (some msgB)) 1 ocOk "A" 0).2.2 (by decide)⟩

/-- C7: from any server state, Shutdown relays exactly one Public
"left the chat" envelope carrying the fresh id (which is marked seen) and the
advanced clock, and the loop stops; every other event leaves the loop
running, so Shutdown is the only normal termination path. -/
theorem C7_shutdown_termination (s : Server) (fid : MsgId) :
    (step s Event.Shutdown fid ocOk).relayed =
      [Msg.new fid s.app_id (Header.Public "left the chat")
         (step s Event.Shutdown fid ocOk).server.clock] ∧
    ((step s Event.Shutdown fid ocOk).server.sent_messages_ids.contains fid = true) ∧
    ((step s Event.Shutdown fid ocOk).server.clock.get s.app_id =
       some ((s.clock.get s.app_id).getD 0 + 1)) ∧
    ((step s Event.Shutdown fid ocOk).running = false) ∧
    (∀ ev : Event, ev ≠ Event.Shutdown → (step s ev fid ocOk).running = true) := by
  refine ⟨rfl, ?_, ?_, rfl, ?_⟩
  · show (insertSet s.sent_messages_ids fid).contains fid = true
    exact contains_insertSet_self _ _
  · show (increment_clock s).clock.get s.app_id = _
    exact increment_clock_local s
  · intro ev hne
    cases ev with
    | DistantInput om =>
        cases om with
        | none => rfl
        | some m =>
            by_cases hc : s.sent_messages_ids.contains m.id = true
            · rw [step_distant_seen s m fid ocOk hc]
            · have hc2 : s.sent_messages_ids.contains m.id = false := by
                cases hcc : s.sent_messages_ids.contains m.id
                · rfl
                · exact absurd hcc hc
              rw [step_distant_fresh s m fid ocOk hc2]
    | UserPublicMessage t => rfl
    | UserPrivateMessage a t => rfl
    | GetClock => rfl
    | Shutdown => exact absurd rfl hne

/-- Witness for C7 at the initial "A" state, with GetClock as the non-Shutdown
event. -/
theorem C7_shutdown_termination_witness :
    (step serverA Event.Shutdown 3 ocOk).relayed =
      [Msg.new 3 serverA.app_id (Header.Public "left the chat")
         (step serverA Event.Shutdown 3 ocOk).server.clock] ∧
    ((step serverA Event.Shutdown 3 ocOk).server.sent_messages_ids.contains 3 = true) ∧
    ((step serverA Event.Shutdown 3 ocOk).server.clock.get serverA.app_id =
       some ((serverA.clock.get serverA.app_id).getD 0 + 1)) ∧
    ((step serverA Event.Shutdown 3 ocOk).running = false) ∧
    (step serverA Event.GetClock 3 ocOk).running = true :=
  ⟨(C7_shutdown_termination serverA 3).1,
   (C7_shutdown_termination serverA 3).2.1,
   (C7_shutdown_termination serverA 3).2.2.1,
   (C7_shutdown_termination serverA 3).2.2.2.1,
   (C7_shutdown_termination serverA 3).2.2.2.2 Event.GetClock (by decide)⟩

/-- C8: when serialization succeeds but the transport write fails, the relay
writes nothing and surfaces the "No one can hear you" notice to the app, and
for every non-Shutdown event the loop keeps running; the write is not
retried, so nothing reaches the transport at all. -/
theorem C8_write_failure_recovery (msg : Msg) (s : Server) (fid : MsgId) (ev : Event)
    (hev : ev ≠ Event.Shutdown) :
    send_message msg ocWriteFail = ([], [AppEvent.ServerMessage "No one can hear you"]) ∧
    (step s ev fid ocWriteFail).relayed = [] ∧
    (step s ev fid ocWriteFail).running = true := by
  refine ⟨rfl, ?_, ?_⟩
  · cases ev with
    | DistantInput om =>
        cases om with
        | none => rfl
        | some m =>
            by_cases hc : s.sent_messages_ids.contains m.id = true
            · rw [step_distant_seen s m fid ocWriteFail hc]
            · have hc2 : s.sent_messages_ids.contains m.id = false := by
                cases hcc : s.sent_messages_ids.contains m.id
                · rfl
                · exact absurd hcc hc
              rw [step_distant_fresh s m fid ocWriteFail hc2]
              rfl
    | UserPublicMessage t => rfl
    | UserPrivateMessage a t => rfl
    | GetClock => rfl
    | Shutdown => exact absurd rfl hev
  · cases ev with
    | DistantInput om =>
        cases om with
        | none => rfl
        | some m =>
            by_cases hc : s.sent_messages_ids.contains m.id = true
            · rw [step_distant_seen s m fid ocWriteFail hc]
            · have hc2 : s.sent_messages_ids.contains m.id = false := by
                cases hcc : s.sent_messages_ids.contains m.id
                · rfl
                · exact absurd hcc hc
              rw [step_distant_fresh s m fid ocWriteFail hc2]
    | UserPublicMessage t => rfl
    | UserPrivateMessage a t => rfl
    | GetClock => rfl
    | Shutdown => exact absurd rfl hev

/-- Witness for C8: a user public send from "A" under a failed write. -/
theorem C8_write_failure_recovery_witness :
    send_message msgB ocWriteFail = ([], [AppEvent.ServerMessage "No one can hear you"]) ∧
    (step serverA (Event.UserPublicMessage "hi") 7 ocWriteFail).relayed = [] ∧
    (step serverA (Event.UserPublicMessage "hi") 7 ocWriteFail).running = true :=
  C8_write_failure_recovery msgB serverA 7 (Event.UserPublicMessage "hi") (by decide)

/-- C9: user sends are not atomic with respect to relay failure: when
serialization or the transport write fails, the fresh id is nevertheless in
the dedup set and the local clock entry has been incremented, with no
rollback, while nothing reaches the transport. -/
theorem C9_send_not_atomic (s : Server) (fid : MsgId) (tgt : AppId) (txt : String)
    (oc : SendOutcome) (hfail : oc.serializeOk = false ∨ oc.writeOk = false) :
    ((step s (Event.UserPublicMessage txt) fid oc).server.sent_messages_ids.contains fid =
        true ∧
     (step s (Event.UserPublicMessage txt) fid oc).server.clock.get s.app_id =
        some ((s.clock.get s.app_id).getD 0 + 1) ∧
     (step s (Event.UserPublicMessage txt) fid oc).relayed = []) ∧
    ((step s (Event.UserPrivateMessage tgt txt) fid oc).server.sent_messages_ids.contains fid =
        true ∧
     (step s (Event.UserPrivateMessage tgt txt) fid oc).server.clock.get s.app_id =
        some ((s.clock.get s.app_id).getD 0 + 1) ∧
     (step s (Event.UserPrivateMessage tgt txt) fid oc).relayed = []) := by
  refine ⟨⟨?_, ?_, ?_⟩, ⟨?_, ?_, ?_⟩⟩
  · show (insertSet s.sent_messages_ids fid).contains fid = true
    exact contains_insertSet_self _ _
  · show (increment_clock s).clock.get s.app_id = _
    exact increment_clock_local s
  · show (send_message (Msg.new fid s.app_id (Header.Public txt)
        (increment_clock s).clock) oc).1 = []
    exact send_message_fail_relayed _ oc hfail
  · show (insertSet s.sent_messages_ids fid).contains fid = true
    exact contains_insertSet_self _ _
  · show (increment_clock s).clock.get s.app_id = _
    exact increment_clock_local s
  · show (send_message (Msg.new fid s.app_id (Header.Private tgt txt)
        (increment_clock s).clock) oc).1 = []
    exact send_message_fail_relayed _ oc hfail

/-- Witness for C9: user sends from "A" under a failed transport write. -/
theorem C9_send_not_atomic_witness :
    (ocWriteFail.serializeOk = false ∨ ocWriteFail.writeOk = false) ∧
    (((step serverA (Event.UserPublicMessage "x") 7 ocWriteFail).server.sent_messages_ids.contains
          7 = true ∧
      (step serverA (Event.UserPublicMessage "x") 7 ocWriteFail).server.clock.get
          serverA.app_id = some ((serverA.clock.get serverA.app_id).getD 0 + 1) ∧
      (step serverA (Event.UserPublicMessage "x") 7 ocWriteFail).relayed = []) ∧
     ((step serverA (Event.UserPrivateMessage "B" "x") 7 ocWriteFail).server.sent_messages_ids.contains
          7 = true ∧
      (step serverA (Event.UserPrivateMessage "B" "x") 7 ocWriteFail).server.clock.get
          serverA.app_id = some ((serverA.clock.get serverA.app_id).getD 0 + 1) ∧
      (step serverA (Event.UserPrivateMessage "B" "x") 7 ocWriteFail).relayed = [])) :=
  ⟨by decide, C9_send_not_atomic serverA 7 "B" "x" ocWriteFail (by decide)⟩

/-- C10: a private message a user sends to their own peer id is never
delivered: no Delivered event is emitted at send time, and any echoed envelope
carrying the same id is discarded by the dedup gate as a complete no-op
(unchanged server state, nothing relayed, no app event). -/
theorem C10_self_private_no_delivery (s : Server) (fid fid2 : MsgId) (txt : String)
    (oc oc2 : SendOutcome) :
    countDelivered (step s (Event.UserPrivateMessage s.app_id txt) fid oc).appEvents = 0 ∧
    (∀ msg2 : Msg, msg2.id = fid →
       step (step s (Event.UserPrivateMessage s.app_id txt) fid oc).server
           (Event.DistantInput (some msg2)) fid2 oc2 =
         ⟨(step s (Event.UserPrivateMessage s.app_id txt) fid oc).server, [], [], true⟩) := by
  constructor
  · show countDelivered (send_message (Msg.new fid s.app_id (Header.Private s.app_id txt)
        (increment_clock s).clock) oc).2 = 0
    exact countDelivered_send _ _
  · intro msg2 h2
    apply step_distant_seen
    show (insertSet s.sent_messages_ids fid).contains msg2.id = true
    rw [h2]
    exact contains_insertSet_self _ _

/-- Witness for C10: "A" sends itself a private message; the echo with the same
id is discarded. -/
theorem C10_self_private_no_delivery_witness :
    countDelivered
        (step serverA (Event.UserPrivateMessage serverA.app_id "me") 7 ocOk).appEvents = 0 ∧
    step (step serverA (Event.UserPrivateMessage serverA.app_id "me") 7 ocOk).server
        (Event.DistantInput (some (Msg.new 7 "A" (Header.Private "A" "me") (Clock.new "A")))) 8
        ocOk =
      ⟨(step serverA (Event.UserPrivateMessage serverA.app_id "me") 7 ocOk).server, [], [],
       true⟩ :=
  ⟨(C10_self_private_no_delivery serverA 7 8 "me" ocOk ocOk).1,
   (C10_self_private_no_delivery serverA 7 8 "me" ocOk ocOk).2
     (Msg.new 7 "A" (Header.Private "A" "me") (Clock.new "A")) rfl⟩

end Netchat
